import Mathlib

/-!
Verification of the geographical warehouse-expense system.

This file gives a shallow embedding, in Lean 4, of the Python modules
`tools/region_map.py`, `tools/core_tools.py`, `tools/hardcoded_query.py`,
`tools/data_validator.py` and `agents/refiner_agent.py`, and proves or
refutes the specification claims about them.

Modelling conventions:
* Python strings are Lean `String`s; the character-level operations
  (`str.upper`, `str.strip`, `str.split`, `re.sub`, ...) are implemented
  on `List Char` and wrapped.  `str.upper`/`str.strip` are modelled for
  the ASCII range (the master data of this system is ASCII).
* The MariaDB connection is an oracle `Oracle : String → String →
  Except String (List String × List (List String))` mapping a database
  target and a SQL text to either a `mariadb.Error` message or a pair
  (column names, rows); row cells are modelled as strings, matching how
  `sql_executor` immediately runs every cell through `str()`.
* Side effects that the claims talk about (opening a connection,
  executing the final invoice query) are made visible as Boolean fields
  of the result structures (`SqlResult.connected`,
  `CalcOutcome.invoiceQueried`).
* Functions that Python executes by unbounded scanning are written with
  an explicit fuel argument (always instantiated with enough fuel by the
  wrapper) so that every definition is structurally recursive and
  kernel-computable.
-/

namespace WhSys

/-! ## Character and string primitives (Python `str` operations, ASCII) -/

/-- Python whitespace for `str.strip` and `re`'s `\s`, ASCII range:
space, tab, newline, carriage return, vertical tab, form feed. -/
def isPySpace (c : Char) : Bool :=
  decide (c.toNat = 32 ∨ c.toNat = 9 ∨ c.toNat = 10 ∨ c.toNat = 13 ∨
          c.toNat = 11 ∨ c.toNat = 12)

/-- ASCII decimal digit (`str.isdigit` / `re`'s `\d`, ASCII range). -/
def isDigitC (c : Char) : Bool :=
  decide (48 ≤ c.toNat ∧ c.toNat ≤ 57)

/-- ASCII uppercase letter (`re`'s `[A-Z]`). -/
def isUpperAZ (c : Char) : Bool :=
  decide (65 ≤ c.toNat ∧ c.toNat ≤ 90)

/-- Python `str.upper` on one character, ASCII range. -/
def pyCharUpper (c : Char) : Char :=
  if 97 ≤ c.toNat ∧ c.toNat ≤ 122 then Char.ofNat (c.toNat - 32) else c

/-- Python `str.upper` on a character list. -/
def pyUpperL (l : List Char) : List Char := l.map pyCharUpper

/-- Python `str.strip()` (no argument): drop leading whitespace. -/
def stripLeftL (l : List Char) : List Char := l.dropWhile isPySpace

/-- Python `str.strip()` (no argument): drop trailing whitespace. -/
def stripRightL (l : List Char) : List Char :=
  (l.reverse.dropWhile isPySpace).reverse

/-- Python `str.strip()` (no argument): drop whitespace at both ends. -/
def pyStripL (l : List Char) : List Char := stripRightL (stripLeftL l)

/-- Python `str.strip(chars)`: drop characters of `set` at both ends. -/
def stripCharSetL (set : List Char) (l : List Char) : List Char :=
  ((l.dropWhile (set.contains ·)).reverse.dropWhile (set.contains ·)).reverse

/-- Python `str.upper` on a string. -/
def pyUpper (s : String) : String := ⟨pyUpperL s.data⟩

/-- Python `str.strip()` on a string. -/
def pyStrip (s : String) : String := ⟨pyStripL s.data⟩

/-- Python `str.startswith` (modelled as a list prefix test). -/
def pyStartsWith (s pre : String) : Bool := pre.data.isPrefixOf s.data

/-- Python `sub in s` substring containment on character lists. -/
def containsSubL (pat : List Char) : List Char → Bool
  | [] => pat.isEmpty
  | c :: rest => pat.isPrefixOf (c :: rest) || containsSubL pat rest

/-- Python `sub in s` substring containment on strings. -/
def containsSub (s pat : String) : Bool := containsSubL pat.data s.data

/-- Python `str.split(sep)` for a one-character separator: splits at every
occurrence, keeping empty pieces (`"a\n\nb".split('\n') = ['a','','b']`). -/
def splitOnCharL (sep : Char) : List Char → List (List Char)
  | [] => [[]]
  | c :: rest =>
    match splitOnCharL sep rest with
    | [] => if c = sep then [[], []] else [[c]]
    | x :: xs => if c = sep then [] :: x :: xs else (c :: x) :: xs

/-- Python `str.rsplit(sep, 1)` for a one-character separator, given that
the separator occurs: the pieces before and after the last occurrence.
Returns `none` when `sep` does not occur. -/
def rsplitOnceL (sep : Char) (l : List Char) : Option (List Char × List Char) :=
  match l.reverse.span (fun c => ¬ (c = sep)) with
  | (_, []) => none
  | (revAfter, _ :: revBefore) => some (revBefore.reverse, revAfter.reverse)

/-- Python `str.split(sep, 1)` for a one-character separator, given that
the separator occurs; `none` when it does not. -/
def splitOnceL (sep : Char) (l : List Char) : Option (List Char × List Char) :=
  match l.span (fun c => ¬ (c = sep)) with
  | (_, []) => none
  | (before, _ :: after) => some (before, after)

/-- Python `', '.join(xs)`-style join with a separator string. -/
def joinSep (sep : String) : List String → String
  | [] => ""
  | [x] => x
  | x :: y :: rest => x ++ sep ++ joinSep sep (y :: rest)

/-- Python `repr` of a string cell as it appears inside `str(tuple)`;
cells in this development never contain quote characters. -/
def pyReprCell (s : String) : String := "'" ++ s ++ "'"

/-- Python `str(tuple_of_cells)`: `()` for empty, `('x',)` for one cell,
`('a', 'b')` for more. -/
def pyTupleRepr (cells : List String) : String :=
  match cells with
  | [] => "()"
  | [c] => "(" ++ pyReprCell c ++ ",)"
  | cs => "(" ++ joinSep ", " (cs.map pyReprCell) ++ ")"

/-- Python `str(list_of_strings)`: `['a', 'b']`. -/
def pyListRepr (cells : List String) : String :=
  "[" ++ joinSep ", " (cells.map pyReprCell) ++ "]"

end WhSys

namespace WhSys

/-! ## `tools/region_map.py` -/

/-- The static city-to-region table `_DEFAULT_REGION_MAP`.  The optional
override file `region_map.json` is absent from the repository, so
`load_region_map()` returns exactly this table. -/
def DEFAULT_REGION_MAP : List (String × String) :=
  [("ALWAR", "NORTH"), ("AMBALA", "NORTH"), ("BAHADURGARH", "NORTH"),
   ("BAMNOLI", "NORTH"), ("BAREILLY", "NORTH"), ("BAWAL", "NORTH"),
   ("CHARKHI DADRI", "NORTH"), ("DHARUHERA", "NORTH"), ("FARIDABAD", "NORTH"),
   ("FAROOQNAGAR", "NORTH"), ("GHAZIABAD", "NORTH"), ("GREATER NOIDA", "NORTH"),
   ("GURGAON", "NORTH"), ("GURUGRAM", "NORTH"), ("HAPUR", "NORTH"),
   ("HARIDWAR", "NORTH"), ("JAIPUR", "NORTH"), ("JHAJJAR", "NORTH"),
   ("KARNAL", "NORTH"), ("LUCKNOW", "NORTH"), ("MANESAR", "NORTH"),
   ("MERTA CITY", "NORTH"), ("MOHALI", "NORTH"), ("PATAUDI", "NORTH"),
   ("RAJPURA", "NORTH"), ("REWARI", "NORTH"), ("SHRI GANGA NAGAR", "NORTH"),
   ("SONIPAT", "NORTH"), ("UDAIPURI", "NORTH"),
   ("ASANSOL", "EAST"), ("BHUBANESWAR", "EAST"), ("GUWAHATI", "EAST"),
   ("KOLKATA", "EAST"), ("PATNA", "EAST"), ("RANCHI", "EAST"),
   ("AHMEDABAD", "WEST"), ("BHIWANDI", "WEST"), ("INDORE", "WEST"),
   ("KOHLAPUR", "WEST"), ("RAJKOT", "WEST"), ("SURAT", "WEST"),
   ("BANGALORE", "SOUTH"), ("CHENNAI", "SOUTH"), ("COIMBATORE", "SOUTH"),
   ("HYDERABAD", "SOUTH"), ("MADURAI", "SOUTH"), ("TIRUPATI", "SOUTH"),
   ("TRICHY", "SOUTH")]

/-- `REGION_MAP = load_region_map()`: the JSON file does not exist, so the
module-level map is the default table. -/
def REGION_MAP : List (String × String) := DEFAULT_REGION_MAP

/-- Python `REGION_MAP.get(key)`: dictionary lookup (keys of the literal
are distinct, so first-match lookup agrees with `dict` semantics). -/
def regionMapGet (key : String) : Option String :=
  (REGION_MAP.find? (fun kv => kv.1 = key)).map (·.2)

/-- `get_region_for_city(city, default)`.  In the source `default` is an
optional parameter whose default value is `"REGION_UNKNOWN"`; every call
site in the repository uses that default. -/
def get_region_for_city (city : String) (default : String) : String :=
  if city = "" then default
  else
    match regionMapGet (pyUpper (pyStrip city)) with
    | some region => region
    | none => default

/-- `get_all_regions()`: the set of values of the region map (Python
`set`; modelled as a deduplicated list, membership is what matters). -/
def get_all_regions : List String := (REGION_MAP.map (·.2)).dedup

/-! ## `config/mariadb_config.py` and `tools/core_tools.py` -/

/-- The keys of `DB_CONNECTION_MAP`; `get_db_config` raises `ValueError`
for any other name.  (Both stored configurations contain every required
key, so the `validate_config` branch of `get_db_config` never raises.) -/
def DB_CONNECTION_TARGETS : List String := ["INVOICES", "WAREHOUSE"]

/-- `FORBIDDEN_SQL_KEYWORDS` from `core_tools.py`. -/
def FORBIDDEN_SQL_KEYWORDS : List String :=
  ["DELETE", "DROP", "UPDATE", "INSERT", "ALTER",
   "TRUNCATE", "CREATE", "REPLACE", "GRANT", "REVOKE"]

/-- The database oracle: target and SQL text to either a `mariadb.Error`
message or (column names, rows of string cells). -/
def Oracle : Type := String → String → Except String (List String × List (List String))

/-- Result of `sql_executor`, with the connection attempt made visible:
`connected` is `true` exactly on the paths that reach
`mariadb.connect`. -/
structure SqlResult where
  output : String
  connected : Bool
deriving Repr

/-- The message of the `ValueError` raised by `get_db_config`, as
formatted by `sql_executor`'s `except` clause. -/
def invalidTargetMsg (db_target : String) : String :=
  "ERROR: Invalid database name: " ++ db_target ++
  ". Must be one of: ['INVOICES', 'WAREHOUSE']"

/-- Rejection message for mutating SQL. -/
def rejectionMsg : String :=
  "ERROR: Query rejected. Only read-only (SELECT) operations are permitted."

/-- Row formatting inside `sql_executor`: warehouse rows with at least two
cells print as `('ID', 'CODE')`, everything else as `str(row)`. -/
def formatRow (db_target : String) (row : List String) : String :=
  if db_target = "WAREHOUSE" ∧ 2 ≤ row.length then
    "('" ++ pyStrip (row.headD "") ++ "', '" ++ pyStrip (row.tail.headD "") ++ "')"
  else pyTupleRepr row

/-- `sql_executor(sql_query, db_target)` from `core_tools.py`:
validates the target, rejects mutating keywords before connecting, then
runs the query through the oracle and formats the result. -/
def sql_executor (sql_query : String) (db_target : String) (db : Oracle) : SqlResult :=
  if ¬ (db_target ∈ DB_CONNECTION_TARGETS) then
    { output := invalidTargetMsg db_target, connected := false }
  else if FORBIDDEN_SQL_KEYWORDS.any
      (fun kw => containsSub (pyStrip (pyUpper sql_query)) kw) then
    { output := rejectionMsg, connected := false }
  else
    match db db_target sql_query with
    | Except.error e =>
      { output := "DATABASE ERROR on " ++ db_target ++ ": " ++ e, connected := true }
    | Except.ok (cols, rows) =>
      { output := "Columns: " ++ pyListRepr cols ++ "\nRows:\n" ++
          String.join (rows.map (fun r => formatRow db_target r ++ "\n")),
        connected := true }

/-- `extract_city_from_warehouse_code` from `core_tools.py`: strip, then
split on the LAST hyphen; a code without a hyphen is its own city. -/
def extract_city_from_warehouse_code (warehouse_code : String) : String :=
  let w := pyStripL warehouse_code.data
  if w.contains '-' then
    match rsplitOnceL '-' w with
    | some (before, _) => ⟨pyUpperL (pyStripL before)⟩
    | none => ⟨pyUpperL w⟩
  else ⟨pyUpperL w⟩

/-- `validate_warehouse_ids` from `core_tools.py`: a nonempty list whose
entries are all (stripped) nonempty digit strings. -/
def validate_warehouse_ids (warehouse_ids : List String) : Bool :=
  ¬ warehouse_ids.isEmpty &&
  warehouse_ids.all (fun wid =>
    let t := pyStripL wid.data
    ¬ t.isEmpty && t.all isDigitC)

end WhSys

namespace WhSys

/-! ## `tools/hardcoded_query.py` -/

/-- The fixed master-data query of `calculate_geographical_expenses`. -/
def warehouseDataQuery : String := "SELECT id, warehouse_code FROM warehouse_info;"

/-- Python dict assignment `m[k] = v` on an insertion-ordered
association list: update in place if the key exists, else append. -/
def dictInsert (m : List (String × String)) (k v : String) : List (String × String) :=
  if m.any (fun p => p.1 = k) then
    m.map (fun p => if p.1 = k then (k, v) else p)
  else m ++ [(k, v)]

/-- Step 2 of `calculate_geographical_expenses`: parse the formatted
output of `sql_executor` back into the `warehouse_codes_map` dict.  For
each line after the two headers: strip; skip empties; strip outer
parentheses; delete all quote characters; split on the first comma;
keep the pair when a comma was present. -/
def parseWarehouseData (raw : String) : List (String × String) :=
  ((splitOnCharL '\n' raw.data).drop 2).foldl
    (fun m lineChars =>
      let line := pyStripL lineChars
      if line.isEmpty then m
      else
        let clean := (stripCharSetL ['(', ')'] line).filter
          (fun c => ¬ (c = '\'' ∨ c = '"'))
        match splitOnceL ',' clean with
        | some (a, b) => dictInsert m ⟨pyStripL a⟩ ⟨pyStripL b⟩
        | none => m)
    []

/-- Step 3 of `calculate_geographical_expenses` for one warehouse row:
does the (cleaned) code match the normalized filter value under the
given (already validated) filter type? -/
def warehouseMatches (filter_type filter_value : String) (wh_code : String) : Bool :=
  let clean_wh_code := pyStrip (pyUpper wh_code)
  let city_name := extract_city_from_warehouse_code clean_wh_code
  if filter_type = "WAREHOUSE" then clean_wh_code = filter_value
  else if filter_type = "CITY" then city_name = filter_value
  else if filter_type = "REGION" then
    get_region_for_city city_name "REGION_UNKNOWN" = filter_value
  else false

/-- The `filtered_warehouse_ids` list accumulated by step 3: ids of the
parsed entries whose code matches. -/
def matchedWarehouseIds (filter_type filter_value : String)
    (entries : List (String × String)) : List String :=
  (entries.filter (fun e => warehouseMatches filter_type filter_value e.2)).map (·.1)

/-- The final invoice aggregate query built in step 5. -/
def finalInvoiceQuery (ids : List String) : String :=
  "\n        SELECT\n            SUM(total_amount) AS Total_Expenses_Including_GST" ++
  "\n        FROM\n            invoice_info\n        WHERE\n            warehouse_id IN (" ++
  joinSep ", " ids ++ ");\n    "

/-- Outcome of `calculate_geographical_expenses`, with the execution of
the final invoice aggregate query made visible: `invoiceQueried` is
`true` exactly on the paths that reach step 5. -/
structure CalcOutcome where
  result : String
  invoiceQueried : Bool
deriving Repr

/-- `calculate_geographical_expenses(filter_type, filter_value)` from
`tools/hardcoded_query.py`.  (The Python `try` around the parsing loop
is dead in the embedding: none of the string operations inside it can
raise.) -/
def calculate_geographical_expenses (filter_type filter_value : String)
    (db : Oracle) : CalcOutcome :=
  let ft := pyStrip (pyUpper filter_type)
  let fv := pyStrip (pyUpper filter_value)
  if ¬ (ft ∈ ["REGION", "CITY", "WAREHOUSE"]) then
    { result := "ERROR: Invalid filter_type. Must be 'REGION', 'CITY', or 'WAREHOUSE'.",
      invoiceQueried := false }
  else
    let raw := (sql_executor warehouseDataQuery "WAREHOUSE" db).output
    if pyStartsWith raw "ERROR" then
      { result := "ERROR: Failed to retrieve warehouse data: " ++ raw,
        invoiceQueried := false }
    else
      let warehouse_codes_map := parseWarehouseData raw
      if warehouse_codes_map.isEmpty then
        { result := "ERROR: No warehouse data found in database.", invoiceQueried := false }
      else
        let filtered_warehouse_ids := matchedWarehouseIds ft fv warehouse_codes_map
        if filtered_warehouse_ids.isEmpty then
          { result := "INFO: No warehouses found matching " ++ ft ++ " '" ++ fv ++
              "'. Please verify the filter value is correct.",
            invoiceQueried := false }
        else if ¬ validate_warehouse_ids filtered_warehouse_ids then
          { result := "ERROR: Invalid warehouse IDs detected. Query aborted for security.",
            invoiceQueried := false }
        else
          let finalResults :=
            (sql_executor (finalInvoiceQuery filtered_warehouse_ids) "INVOICES" db).output
          if pyStartsWith finalResults "ERROR" then
            { result := "ERROR: Failed to calculate expenses: " ++ finalResults,
              invoiceQueried := true }
          else
            { result := "Total expenses (including GST) for " ++ ft ++ " '" ++ fv ++
                "':\nWarehouses matched: " ++ toString filtered_warehouse_ids.length ++
                "\n" ++ finalResults,
              invoiceQueried := true }

/-- Exact-arithmetic semantics of the final aggregate query
`SUM(total_amount) ... WHERE warehouse_id IN (ids)` over an
`invoice_info` table of (warehouse_id, total_amount) rows. -/
def invoiceSum (invoices : List (String × Int)) (ids : List String) : Int :=
  ((invoices.filter (fun r => ids.contains r.1)).map (·.2)).sum

/-! ## `tools/data_validator.py` -/

/-- The state of the `DataValidator` singleton; Python sets are modelled
as duplicate-free lists built by `setAdd` (membership is what the claims
are about). -/
structure DataValidator where
  valid_regions : List String
  valid_cities : List String
  valid_warehouses : List String
  warehouse_to_city : List (String × String)
  is_initialized : Bool
deriving Repr

/-- Python `set.add`. -/
def setAdd (s : List String) (x : String) : List String :=
  if s.contains x then s else s ++ [x]

/-- `DataValidator.__init__`: all collections empty, not initialized. -/
def DataValidator.new : DataValidator :=
  { valid_regions := [], valid_cities := [], valid_warehouses := [],
    warehouse_to_city := [], is_initialized := false }

/-- The fixed master-data query of `DataValidator.initialize`. -/
def validatorQuery : String := "SELECT warehouse_code FROM warehouse_info;"

/-- The character set of `line.strip("()',\" ")` in
`DataValidator.initialize`. -/
def validatorStripSet : List Char := ['(', ')', '\'', ',', '"', ' ']

/-- One line of the parsing loop of `DataValidator.initialize`, acting on
the accumulated (warehouses, cities, warehouse_to_city). -/
def validatorStep (acc : List String × List String × List (String × String))
    (lineChars : List Char) : List String × List String × List (String × String) :=
  let (ws, cs, m) := acc
  let line := pyStripL lineChars
  if line.isEmpty ∨ line = ['(', ')'] then acc
  else
    let code := stripCharSetL validatorStripSet line
    if code.isEmpty then acc
    else
      let code : String := ⟨pyUpperL code⟩
      let ws := setAdd ws code
      let city := extract_city_from_warehouse_code code
      if ¬ (city = "") then
        (ws, setAdd cs (pyUpper city), dictInsert m code (pyUpper city))
      else (ws, cs, m)

/-- `DataValidator.initialize`: no-op when already initialized; raises
(`Except.error`) when the raw master-data string starts with `"ERROR"`;
otherwise parses every line after the two headers and marks the
validator initialized.  (`_validate_region_mappings` only logs.) -/
def DataValidator.initialize (v : DataValidator) (db : Oracle) :
    Except String DataValidator :=
  if v.is_initialized then Except.ok v
  else
    let valid_regions := get_all_regions
    let raw := (sql_executor validatorQuery "WAREHOUSE" db).output
    if pyStartsWith raw "ERROR" then
      Except.error "Cannot initialize DataValidator: database query failed"
    else
      let (ws, cs, m) := ((splitOnCharL '\n' raw.data).drop 2).foldl validatorStep
        (v.valid_warehouses, v.valid_cities, v.warehouse_to_city)
      Except.ok { valid_regions := valid_regions, valid_cities := cs,
                  valid_warehouses := ws, warehouse_to_city := m,
                  is_initialized := true }

end WhSys

namespace WhSys

/-! ## `agents/refiner_agent.py`: response cleanup -/

/-- Python `str.replace(pat, "")`: remove every occurrence of `pat`,
scanning left to right.  Fuel-driven (one unit per examined character);
`fuel ≥ l.length` is always enough, and exhausted fuel returns the
remainder unchanged. -/
def removeAllF (pat : List Char) : Nat → List Char → List Char
  | 0, l => l
  | _ + 1, [] => []
  | fuel + 1, c :: rest =>
    if pat.isPrefixOf (c :: rest) ∧ ¬ pat.isEmpty then
      removeAllF pat fuel ((c :: rest).drop pat.length)
    else c :: removeAllF pat fuel rest

/-- `re.sub(r'//.*?(?=\n|$)', '', s)`: from every `//` delete up to (not
including) the next newline or the end of the string. -/
def stripLineCommentsF : Nat → List Char → List Char
  | 0, l => l
  | _ + 1, [] => []
  | fuel + 1, c :: rest =>
    if ['/', '/'].isPrefixOf (c :: rest) then
      stripLineCommentsF fuel (((c :: rest).drop 2).dropWhile (fun x => ¬ (x = '\n')))
    else c :: stripLineCommentsF fuel rest

/-- Scan for the closing `*/` of a block comment; returns the remainder
after it. -/
def findBlockEnd : List Char → Option (List Char)
  | '*' :: '/' :: rest => some rest
  | _ :: rest => findBlockEnd rest
  | [] => none

/-- `re.sub(r'/\*.*?\*/', '', s, flags=re.DOTALL)`: delete every lazily
matched `/* ... */`; an unterminated `/*` matches nothing. -/
def stripBlockCommentsF : Nat → List Char → List Char
  | 0, l => l
  | _ + 1, [] => []
  | fuel + 1, c :: rest =>
    if ['/', '*'].isPrefixOf (c :: rest) then
      match findBlockEnd ((c :: rest).drop 2) with
      | some rest2 => stripBlockCommentsF fuel rest2
      | none => c :: rest
    else c :: stripBlockCommentsF fuel rest

/-- `re.sub(r',(\s*[}\]])', r'\1', s)`: delete a comma followed by
optional whitespace and a closing brace/bracket, keeping the whitespace
and the closer; scanning resumes after each replaced match. -/
def fixTrailingCommasF : Nat → List Char → List Char
  | 0, l => l
  | _ + 1, [] => []
  | fuel + 1, c :: rest =>
    if c = ',' then
      match rest.dropWhile isPySpace with
      | d :: rest2 =>
        if d = '}' ∨ d = ']' then
          rest.takeWhile isPySpace ++ d :: fixTrailingCommasF fuel rest2
        else ',' :: fixTrailingCommasF fuel rest
      | [] => ',' :: fixTrailingCommasF fuel rest
    else c :: fixTrailingCommasF fuel rest

/-- `clean_json_response` from `refiner_agent.py`: strip; delete
markdown fences (`` ```json `` first, then `` ``` ``); strip; drop `//`
line comments, `/* */` block comments and trailing commas; strip. -/
def clean_json_response (response : String) : String :=
  let n := response.data.length
  let c1 := pyStripL response.data
  let c2 := removeAllF "```json".data n c1
  let c3 := removeAllF "```".data n c2
  let c4 := pyStripL c3
  let c5 := stripLineCommentsF n c4
  let c6 := stripBlockCommentsF n c5
  let c7 := fixTrailingCommasF n c6
  ⟨pyStripL c7⟩

/-! ## A JSON value type and validator (the shape `json.loads` accepts) -/

/-- Structured data parsed from a backend response.  Numbers are kept as
their lexemes: no claim compares numeric values, and modelling
floating-point parsing is out of scope. -/
inductive Json where
  | null
  | bool (b : Bool)
  | num (lexeme : String)
  | str (s : String)
  | arr (elems : List Json)
  | obj (members : List (String × Json))

/-- JSON insignificant whitespace (what `json.loads` skips). -/
def isJsonWs (c : Char) : Bool :=
  decide (c.toNat = 32 ∨ c.toNat = 9 ∨ c.toNat = 10 ∨ c.toNat = 13)

/-- Skip JSON whitespace. -/
def skipJsonWs (l : List Char) : List Char := l.dropWhile isJsonWs

/-- Hexadecimal digit. -/
def isHexC (c : Char) : Bool :=
  decide ((48 ≤ c.toNat ∧ c.toNat ≤ 57) ∨ (97 ≤ c.toNat ∧ c.toNat ≤ 102) ∨
          (65 ≤ c.toNat ∧ c.toNat ≤ 70))

/-- Value of a hexadecimal digit. -/
def hexVal (c : Char) : Nat :=
  if c.toNat ≤ 57 then c.toNat - 48
  else if c.toNat ≤ 70 then c.toNat - 55
  else c.toNat - 87

/-- Prepend a character to the decoded part of a string-parser result. -/
def consFst (c : Char) : Option (List Char × List Char) → Option (List Char × List Char)
  | none => none
  | some (l, r) => some (c :: l, r)

/-- Parse the body of a JSON string literal, after the opening quote:
returns the decoded content and the remainder after the closing quote.
Control characters below 0x20 are rejected, escapes are decoded
(surrogate pairs are not recombined; nothing in this development
produces them). -/
def parseStrBody : List Char → Option (List Char × List Char)
  | '"' :: rest => some ([], rest)
  | '\\' :: '"' :: rest => consFst '"' (parseStrBody rest)
  | '\\' :: '\\' :: rest => consFst '\\' (parseStrBody rest)
  | '\\' :: '/' :: rest => consFst '/' (parseStrBody rest)
  | '\\' :: 'b' :: rest => consFst '\x08' (parseStrBody rest)
  | '\\' :: 'f' :: rest => consFst '\x0c' (parseStrBody rest)
  | '\\' :: 'n' :: rest => consFst '\n' (parseStrBody rest)
  | '\\' :: 'r' :: rest => consFst '\r' (parseStrBody rest)
  | '\\' :: 't' :: rest => consFst '\t' (parseStrBody rest)
  | '\\' :: 'u' :: a :: b :: c :: d :: rest =>
    if isHexC a ∧ isHexC b ∧ isHexC c ∧ isHexC d then
      consFst (Char.ofNat (((hexVal a * 16 + hexVal b) * 16 + hexVal c) * 16 + hexVal d))
        (parseStrBody rest)
    else none
  | '\\' :: _ => none
  | c :: rest => if c.toNat < 32 then none else consFst c (parseStrBody rest)
  | [] => none

/-- Parse a JSON number lexeme (`-? int frac? exp?`); returns the lexeme
and the remainder. -/
def parseNumBody (l : List Char) : Option (List Char × List Char) :=
  let (sign, l1) : List Char × List Char :=
    match l with
    | '-' :: t => (['-'], t)
    | _ => ([], l)
  let intPart : Option (List Char × List Char) :=
    match l1 with
    | '0' :: t => some (['0'], t)
    | c :: t =>
      if 49 ≤ c.toNat ∧ c.toNat ≤ 57 then
        some (c :: t.takeWhile isDigitC, t.dropWhile isDigitC)
      else none
    | [] => none
  match intPart with
  | none => none
  | some (ip, r1) =>
    let (fp, r2) : List Char × List Char :=
      match r1 with
      | '.' :: u =>
        if (u.takeWhile isDigitC).isEmpty then ([], r1)
        else ('.' :: u.takeWhile isDigitC, u.dropWhile isDigitC)
      | _ => ([], r1)
    let fracOk : Bool := match r1 with | '.' :: u => ¬ (u.takeWhile isDigitC).isEmpty | _ => true
    if ¬ fracOk then none
    else
      match r2 with
      | e :: u =>
        if e = 'e' ∨ e = 'E' then
          let (es, u1) : List Char × List Char :=
            match u with
            | '+' :: v => (['+'], v)
            | '-' :: v => (['-'], v)
            | _ => ([], u)
          let ds := u1.takeWhile isDigitC
          if ds.isEmpty then none
          else some (sign ++ ip ++ fp ++ e :: es ++ ds, u1.dropWhile isDigitC)
        else some (sign ++ ip ++ fp, r2)
      | [] => some (sign ++ ip ++ fp, r2)

mutual

/-- Parse one JSON value (fuel-driven; the wrapper always supplies
enough fuel).  Accepts the same grammar as CPython's non-strict
`json.loads`, including the `NaN`/`Infinity` literals. -/
def parseJsonVal (fuel : Nat) (s : List Char) : Option (Json × List Char) :=
  match fuel with
  | 0 => none
  | fuel + 1 =>
    match skipJsonWs s with
    | [] => none
    | c :: rest =>
      if c = '{' then
        match skipJsonWs rest with
        | '}' :: r => some (Json.obj [], r)
        | _ => parseJsonObj fuel rest []
      else if c = '[' then
        match skipJsonWs rest with
        | ']' :: r => some (Json.arr [], r)
        | _ => parseJsonArr fuel rest []
      else if c = '"' then (parseStrBody rest).map (fun p => (Json.str ⟨p.1⟩, p.2))
      else if c = 't' then
        match rest with
        | 'r' :: 'u' :: 'e' :: r => some (Json.bool true, r)
        | _ => none
      else if c = 'f' then
        match rest with
        | 'a' :: 'l' :: 's' :: 'e' :: r => some (Json.bool false, r)
        | _ => none
      else if c = 'n' then
        match rest with
        | 'u' :: 'l' :: 'l' :: r => some (Json.null, r)
        | _ => none
      else if c = 'N' then
        match rest with
        | 'a' :: 'N' :: r => some (Json.num "NaN", r)
        | _ => none
      else if c = 'I' then
        match rest with
        | 'n' :: 'f' :: 'i' :: 'n' :: 'i' :: 't' :: 'y' :: r => some (Json.num "Infinity", r)
        | _ => none
      else if c = '-' ∧ rest.headD ' ' = 'I' then
        match rest with
        | 'I' :: 'n' :: 'f' :: 'i' :: 'n' :: 'i' :: 't' :: 'y' :: r =>
          some (Json.num "-Infinity", r)
        | _ => none
      else (parseNumBody (c :: rest)).map (fun p => (Json.num ⟨p.1⟩, p.2))

/-- Parse the members of a JSON object after its `{` (the empty-object
case is handled by the caller). -/
def parseJsonObj (fuel : Nat) (s : List Char) (acc : List (String × Json)) :
    Option (Json × List Char) :=
  match fuel with
  | 0 => none
  | fuel + 1 =>
    match skipJsonWs s with
    | '"' :: rest =>
      match parseStrBody rest with
      | none => none
      | some (key, r1) =>
        match skipJsonWs r1 with
        | ':' :: r2 =>
          match parseJsonVal fuel r2 with
          | none => none
          | some (v, r3) =>
            match skipJsonWs r3 with
            | ',' :: r4 => parseJsonObj fuel r4 (acc ++ [(⟨key⟩, v)])
            | '}' :: r4 => some (Json.obj (acc ++ [(⟨key⟩, v)]), r4)
            | _ => none
        | _ => none
    | _ => none

/-- Parse the elements of a JSON array after its `[` (the empty-array
case is handled by the caller). -/
def parseJsonArr (fuel : Nat) (s : List Char) (acc : List Json) :
    Option (Json × List Char) :=
  match fuel with
  | 0 => none
  | fuel + 1 =>
    match parseJsonVal fuel s with
    | none => none
    | some (v, r1) =>
      match skipJsonWs r1 with
      | ',' :: r2 => parseJsonArr fuel r2 (acc ++ [v])
      | ']' :: r2 => some (Json.arr (acc ++ [v]), r2)
      | _ => none

end

/-- `json.loads` succeeding: parse one value and require only
whitespace after it. -/
def jsonParse (s : String) : Option Json :=
  match parseJsonVal (s.data.length + 2) s.data with
  | some (j, rest) => if (skipJsonWs rest).isEmpty then some j else none
  | none => none

/-- The text parses as valid JSON. -/
def jsonValid (s : String) : Bool := (jsonParse s).isSome

end WhSys

namespace WhSys

/-! ## `agents/refiner_agent.py`: fast path and `agent_invoke` -/

/-- `re.search(r'([A-Z\s]+)-(\d+)', s)`: finds the leftmost maximal run
of uppercase letters and whitespace that is followed by a hyphen and at
least one digit; returns (group 1, group 2).  Fuel-driven; the wrapper
supplies `s.length`. -/
def regexSearchCityCode : Nat → List Char → Option (List Char × List Char)
  | 0, _ => none
  | _ + 1, [] => none
  | fuel + 1, c :: rest =>
    if isUpperAZ c || isPySpace c then
      let run := (c :: rest).takeWhile (fun x => isUpperAZ x || isPySpace x)
      match (c :: rest).dropWhile (fun x => isUpperAZ x || isPySpace x) with
      | '-' :: a2 =>
        let ds := a2.takeWhile isDigitC
        if ds.isEmpty then regexSearchCityCode fuel a2
        else some (run, ds)
      | after => regexSearchCityCode fuel after
    else regexSearchCityCode fuel rest

/-- `extract_warehouse_code_from_query` from `refiner_agent.py`:
1. if the uppercased query has a space and its last space-separated
   piece is all digits, replace the last space with a hyphen and test
   exact membership;
2. else return the first valid warehouse code occurring as a substring
   of the uppercased query;
3. else pattern-match `<letters/spaces>-<digits>` and test membership. -/
def extract_warehouse_code_from_query (query : String)
    (valid_warehouses : List String) : Option String :=
  let qu := pyStripL (pyUpperL query.data)
  let branch1 : Option String :=
    if qu.contains ' ' then
      let lastPart := (splitOnCharL ' ' qu).getLastD []
      if ¬ lastPart.isEmpty ∧ lastPart.all isDigitC then
        match rsplitOnceL ' ' qu with
        | some (before, after) =>
          let potential : String := ⟨before⟩ ++ "-" ++ ⟨after⟩
          if valid_warehouses.contains potential then some potential else none
        | none => none
      else none
    else none
  match branch1 with
  | some w => some w
  | none =>
    match valid_warehouses.find? (fun w => containsSubL w.data qu) with
    | some w => some w
    | none =>
      match regexSearchCityCode qu.length qu with
      | some (run, ds) =>
        let potential : String := ⟨pyStripL run⟩ ++ "-" ++ ⟨ds⟩
        if valid_warehouses.contains potential then some potential else none
      | none => none

/-- One turn of the conversation history. -/
structure ChatMsg where
  role : String
  content : String

/-- The `SUCCESS` command dict built by the fast path of
`agent_invoke`. -/
def successCommand (warehouse_match : String) : Json :=
  Json.obj
    [("status", Json.str "SUCCESS"),
     ("command", Json.obj
       [("tool_name", Json.str "calculate_expenses"),
        ("filter_type", Json.str "WAREHOUSE"),
        ("filter_values", Json.arr [Json.str warehouse_match])]),
     ("clarification_question", Json.null)]

/-- The `ERROR` dict built by the two `except` fallbacks of
`agent_invoke`. -/
def errorResult (error_message : String) : Json :=
  Json.obj
    [("status", Json.str "ERROR"),
     ("error_message", Json.str error_message)]

/-- The `CLARIFICATION_NEEDED` dict built by the fuzzy fallback. -/
def clarificationResult (question : String) : Json :=
  Json.obj
    [("status", Json.str "CLARIFICATION_NEEDED"),
     ("command", Json.null),
     ("clarification_question", Json.str question)]

/-- Boolean shape tests on parsed values. -/
def Json.isObj : Json → Bool
  | Json.obj _ => true
  | _ => false

/-- Python `"status" in parsed_json`: key membership for a dict, element
equality for a list, substring containment for a string, and a
`TypeError` (modelled as `Except.error`) for the other types. -/
def jsonContainsStatus : Json → Except String Bool
  | Json.obj members => Except.ok (members.any (fun kv => kv.1 = "status"))
  | Json.arr elems =>
    Except.ok (elems.any (fun x => match x with | Json.str s => s = "status" | _ => false))
  | Json.str s => Except.ok (containsSub s "status")
  | _ => Except.error "argument of type 'int' is not iterable"

/-- `difflib.get_close_matches` at `n=3` with the fixed cutoff `0.7` of
the fallback call.  The similarity ratio is floating-point arithmetic in
an external library, so it is modelled as an oracle; no claim depends on
which matches it returns. -/
def FuzzyOracle : Type := String → List String → List String

/-- `fuzzy_match_city(user_input, valid_cities, threshold)` from
`refiner_agent.py`: uppercase the input, then ask `get_close_matches`. -/
def fuzzy_match_city (gcm : FuzzyOracle) (user_input : String)
    (valid_cities : List String) : List String :=
  gcm (pyUpper user_input) valid_cities

/-- The prompt built by `REFINER_PROMPT_TEMPLATE.format(...)`.  The
template's fixed instructional prose is elided to a marker: no claim
inspects the prompt text (every theorem quantifies over the backend).
`format` interpolates, in placeholder order, the valid cities, the
15-element warehouse sample, the rendered history and the query; the
`valid_regions` keyword argument has no placeholder in the template and
is discarded by `format`. -/
def refinerPrompt (valid_cities valid_warehouses_sample : List String)
    (chat_history_str user_query : String) : String :=
  "REFINER_PROMPT_TEMPLATE[" ++ pyListRepr valid_cities ++ "][" ++
    pyListRepr valid_warehouses_sample ++ "][" ++ chat_history_str ++ "][" ++
    user_query ++ "]"

/-- The message of a `json.JSONDecodeError`.  CPython's message text
depends on the failure position; it is modelled as a constant because no
theorem observes it. -/
def jsonDecodeErrMsg : String := "Expecting value: line 1 column 1 (char 0)"

/-- `agent_invoke` from `create_refiner_agent` in `refiner_agent.py`.
The backend `llm_client.invoke` is a function returning either a raised
exception's message (`Except.error`) or the completion text.  The
function is total: every Python path returns a value, and the modelled
exceptions (backend failure, `TypeError`/`ValueError` on the `status`
check) are caught by the `except` clauses as in the source. -/
def agent_invoke (llm : String → Except String String) (gcm : FuzzyOracle)
    (user_query : String) (chat_history : List ChatMsg)
    (_valid_regions valid_cities valid_warehouses : List String) : Json :=
  match extract_warehouse_code_from_query user_query valid_warehouses with
  | some warehouse_match => successCommand warehouse_match
  | none =>
    let history_str :=
      if chat_history.isEmpty then "No history yet."
      else joinSep "\n" (chat_history.map (fun m => m.role ++ ": " ++ m.content))
    let prompt := refinerPrompt valid_cities (valid_warehouses.take 15) history_str user_query
    match llm prompt with
    | Except.error e => errorResult ("LLM invocation failed: " ++ e)
    | Except.ok response =>
      let cleaned := clean_json_response response
      match jsonParse cleaned with
      | none =>
        let fuzzy_matches := fuzzy_match_city gcm user_query valid_cities
        if ¬ fuzzy_matches.isEmpty then
          clarificationResult
            ("Did you mean one of these cities: " ++ joinSep ", " fuzzy_matches ++ "?")
        else errorResult ("Failed to parse LLM response. JSON error: " ++ jsonDecodeErrMsg)
      | some parsed =>
        match jsonContainsStatus parsed with
        | Except.error e => errorResult ("LLM invocation failed: " ++ e)
        | Except.ok true => parsed
        | Except.ok false =>
          errorResult "LLM invocation failed: Missing 'status' field in LLM response"

end WhSys

namespace WhSys

/-! ## Lemmas about the string primitives -/

/-- Normalization applied by `calculate_geographical_expenses` to its
filter arguments: `value.upper().strip()`. -/
def normFV (s : String) : String := pyStrip (pyUpper s)

theorem charOfNat_toNat_sub32 (n : Nat) (h1 : 97 ≤ n) (h2 : n ≤ 122) :
    (Char.ofNat (n - 32)).toNat = n - 32 := by
  interval_cases n <;> decide

theorem pyCharUpper_toNat (c : Char) :
    (pyCharUpper c).toNat =
      if 97 ≤ c.toNat ∧ c.toNat ≤ 122 then c.toNat - 32 else c.toNat := by
  unfold pyCharUpper
  split
  case isTrue h => exact charOfNat_toNat_sub32 c.toNat h.1 h.2
  case isFalse h => rfl

theorem pyCharUpper_eq_self (c : Char) (h : ¬ (97 ≤ c.toNat ∧ c.toNat ≤ 122)) :
    pyCharUpper c = c := by
  unfold pyCharUpper
  exact if_neg h

theorem pyCharUpper_idem (c : Char) : pyCharUpper (pyCharUpper c) = pyCharUpper c := by
  by_cases h : 97 ≤ c.toNat ∧ c.toNat ≤ 122
  · apply pyCharUpper_eq_self
    rw [pyCharUpper_toNat, if_pos h]
    omega
  · rw [pyCharUpper_eq_self c h]
    exact pyCharUpper_eq_self c h

theorem isPySpace_pyCharUpper (c : Char) : isPySpace (pyCharUpper c) = isPySpace c := by
  by_cases h : 97 ≤ c.toNat ∧ c.toNat ≤ 122
  · have ht : (pyCharUpper c).toNat = c.toNat - 32 := by
      rw [pyCharUpper_toNat, if_pos h]
    unfold isPySpace
    rw [ht]
    have h1 : ¬ (c.toNat - 32 = 32 ∨ c.toNat - 32 = 9 ∨ c.toNat - 32 = 10 ∨
        c.toNat - 32 = 13 ∨ c.toNat - 32 = 11 ∨ c.toNat - 32 = 12) := by omega
    have h2 : ¬ (c.toNat = 32 ∨ c.toNat = 9 ∨ c.toNat = 10 ∨
        c.toNat = 13 ∨ c.toNat = 11 ∨ c.toNat = 12) := by omega
    rw [decide_eq_false h1, decide_eq_false h2]
  · rw [pyCharUpper_eq_self c h]

theorem pyUpperL_idem (l : List Char) : pyUpperL (pyUpperL l) = pyUpperL l := by
  unfold pyUpperL
  rw [List.map_map]
  exact List.map_congr_left (fun a _ => pyCharUpper_idem a)

theorem stripLeftL_pyUpperL (l : List Char) :
    stripLeftL (pyUpperL l) = pyUpperL (stripLeftL l) := by
  unfold stripLeftL pyUpperL
  rw [List.dropWhile_map]
  rw [show (isPySpace ∘ pyCharUpper) = isPySpace from funext isPySpace_pyCharUpper]

theorem stripRightL_pyUpperL (l : List Char) :
    stripRightL (pyUpperL l) = pyUpperL (stripRightL l) := by
  unfold stripRightL pyUpperL
  rw [← List.map_reverse, List.dropWhile_map, ← List.map_reverse]
  rw [show (isPySpace ∘ pyCharUpper) = isPySpace from funext isPySpace_pyCharUpper]

theorem pyStripL_pyUpperL (l : List Char) :
    pyStripL (pyUpperL l) = pyUpperL (pyStripL l) := by
  unfold pyStripL
  rw [stripLeftL_pyUpperL, stripRightL_pyUpperL]

theorem prefix_stripRightL (l : List Char) : stripRightL l <+: l := by
  have h := List.dropWhile_suffix (l := l.reverse) isPySpace
  have h2 := List.reverse_prefix.mpr h
  rw [List.reverse_reverse] at h2
  exact h2

theorem stripLeftL_idem (l : List Char) : stripLeftL (stripLeftL l) = stripLeftL l :=
  List.dropWhile_idempotent _ _

theorem stripRightL_idem (l : List Char) : stripRightL (stripRightL l) = stripRightL l := by
  unfold stripRightL
  rw [List.reverse_reverse, List.dropWhile_idempotent]

theorem stripLeftL_head_not_space (l : List Char) (c : Char) (t : List Char)
    (h : stripLeftL l = c :: t) : isPySpace c = false := by
  by_contra hc
  have hc' : isPySpace c = true := by
    cases hcc : isPySpace c
    · exact absurd hcc hc
    · rfl
  have hidem := stripLeftL_idem l
  rw [h] at hidem
  unfold stripLeftL at hidem
  rw [List.dropWhile_cons_of_pos hc'] at hidem
  have hlen := congrArg List.length hidem
  have hle := (List.dropWhile_suffix (l := t) isPySpace).length_le
  rw [List.length_cons] at hlen
  omega

theorem stripLeftL_stripRightL_stripLeftL (l : List Char) :
    stripLeftL (stripRightL (stripLeftL l)) = stripRightL (stripLeftL l) := by
  cases hy : stripRightL (stripLeftL l) with
  | nil => rfl
  | cons c t =>
    have hpre : stripRightL (stripLeftL l) <+: stripLeftL l := prefix_stripRightL _
    rw [hy] at hpre
    obtain ⟨s, hs⟩ := hpre
    have hhead : isPySpace c = false := by
      apply stripLeftL_head_not_space l c (t ++ s)
      rw [← hs, List.cons_append]
    unfold stripLeftL
    rw [List.dropWhile_cons_of_neg (by rw [hhead]; exact Bool.false_ne_true)]

theorem pyStripL_idem (l : List Char) : pyStripL (pyStripL l) = pyStripL l := by
  unfold pyStripL
  rw [stripLeftL_stripRightL_stripLeftL, stripRightL_idem]

theorem pyStripL_infix_self (l : List Char) : pyStripL l <:+: l :=
  ((prefix_stripRightL (stripLeftL l)).isInfix).trans
    ((List.dropWhile_suffix isPySpace).isInfix)

theorem containsSubL_iff (pat l : List Char) : containsSubL pat l = true ↔ pat <:+: l := by
  induction l with
  | nil =>
    unfold containsSubL
    rw [List.isEmpty_iff, List.infix_nil]
  | cons c rest ih =>
    unfold containsSubL
    rw [Bool.or_eq_true, List.isPrefixOf_iff_prefix, ih, List.infix_cons_iff]

theorem infix_stripLeftL_of (pat l : List Char) (hne : pat ≠ [])
    (hns : ∀ c ∈ pat, isPySpace c = false) (h : pat <:+: l) :
    pat <:+: stripLeftL l := by
  induction l with
  | nil => rw [List.infix_nil] at h; exact absurd h hne
  | cons c rest ih =>
    by_cases hc : isPySpace c = true
    · unfold stripLeftL
      rw [List.dropWhile_cons_of_pos hc]
      apply ih
      rcases List.infix_cons_iff.mp h with hpre | hinf
      · obtain ⟨t, ht⟩ := hpre
        cases pat with
        | nil => exact absurd rfl hne
        | cons p ps =>
          have hp : p = c := by
            have := ht
            simp at this
            exact this.1
          have := hns p (by simp)
          rw [hp, hc] at this
          exact absurd this (by simp)
      · exact hinf
    · unfold stripLeftL
      rw [List.dropWhile_cons_of_neg hc]
      exact h

theorem infix_stripRightL_of (pat l : List Char) (hne : pat ≠ [])
    (hns : ∀ c ∈ pat, isPySpace c = false) (h : pat <:+: l) :
    pat <:+: stripRightL l := by
  have hrev : pat.reverse <:+: l.reverse := List.reverse_infix.mpr h
  have hne' : pat.reverse ≠ [] := by
    intro hx
    exact hne (by simpa using congrArg List.reverse hx)
  have hns' : ∀ c ∈ pat.reverse, isPySpace c = false := by
    intro c hc
    exact hns c (List.mem_reverse.mp hc)
  have := infix_stripLeftL_of pat.reverse l.reverse hne' hns' hrev
  unfold stripRightL
  have h2 := List.reverse_infix.mpr this
  rw [List.reverse_reverse] at h2
  exact h2

theorem infix_pyStripL_of (pat l : List Char) (hne : pat ≠ [])
    (hns : ∀ c ∈ pat, isPySpace c = false) (h : pat <:+: l) :
    pat <:+: pyStripL l :=
  infix_stripRightL_of pat (stripLeftL l) hne hns
    (infix_stripLeftL_of pat l hne hns h)

end WhSys

namespace WhSys

/-! ## Lemmas about region lookup and city extraction -/

theorem string_mk_inj (a b : List Char) : (String.mk a) = (String.mk b) ↔ a = b := by
  constructor
  · intro h
    injection h
  · intro h
    rw [h]

theorem upperStrip_normFV (C : String) :
    pyUpper (pyStrip (normFV C)) = pyUpper (pyStrip C) := by
  apply (string_mk_inj _ _).mpr
  show pyUpperL (pyStripL (pyStripL (pyUpperL C.data))) = pyUpperL (pyStripL C.data)
  rw [pyStripL_idem, pyStripL_pyUpperL, pyUpperL_idem]

theorem normFV_empty_iff (C : String) : normFV C = "" ↔ pyStrip C = "" := by
  show (⟨pyStripL (pyUpperL C.data)⟩ : String) = ⟨[]⟩ ↔ (⟨pyStripL C.data⟩ : String) = ⟨[]⟩
  rw [string_mk_inj, string_mk_inj, pyStripL_pyUpperL]
  unfold pyUpperL
  rw [List.map_eq_nil_iff]

theorem regionMapGet_empty : regionMapGet "" = none := by decide

theorem pyUpper_empty : pyUpper "" = "" := rfl

theorem get_region_for_city_normFV (C d : String) :
    get_region_for_city (normFV C) d = get_region_for_city C d := by
  unfold get_region_for_city
  by_cases hC : C = ""
  · subst hC
    rfl
  · rw [if_neg hC]
    by_cases hN : normFV C = ""
    · rw [if_pos hN]
      have hS : pyStrip C = "" := (normFV_empty_iff C).mp hN
      rw [hS, pyUpper_empty, regionMapGet_empty]
    · rw [if_neg hN, upperStrip_normFV]

theorem extract_city_eq_upper_strip (code : String) :
    ∃ x : List Char, extract_city_from_warehouse_code code = ⟨pyUpperL (pyStripL x)⟩ := by
  unfold extract_city_from_warehouse_code
  by_cases h : (pyStripL code.data).contains '-'
  · rw [if_pos h]
    cases hr : rsplitOnceL '-' (pyStripL code.data) with
    | none => exact ⟨code.data, rfl⟩
    | some p =>
      refine ⟨p.1, ?_⟩
      cases p
      rfl
  · rw [if_neg h]
    exact ⟨code.data, rfl⟩

theorem normFV_upper_strip (x : List Char) :
    normFV ⟨pyUpperL (pyStripL x)⟩ = ⟨pyUpperL (pyStripL x)⟩ := by
  apply (string_mk_inj _ _).mpr
  show pyStripL (pyUpperL (pyUpperL (pyStripL x))) = pyUpperL (pyStripL x)
  rw [pyUpperL_idem, pyStripL_pyUpperL, pyStripL_idem]

theorem normFV_extract_city (code : String) :
    normFV (extract_city_from_warehouse_code code) = extract_city_from_warehouse_code code := by
  obtain ⟨x, hx⟩ := extract_city_eq_upper_strip code
  rw [hx, normFV_upper_strip]

theorem warehouseMatches_REGION (fv code : String) :
    warehouseMatches "REGION" fv code = true ↔
      get_region_for_city (extract_city_from_warehouse_code (pyStrip (pyUpper code)))
        "REGION_UNKNOWN" = fv := by
  unfold warehouseMatches
  simp

theorem warehouseMatches_CITY (fv code : String) :
    warehouseMatches "CITY" fv code = true ↔
      extract_city_from_warehouse_code (pyStrip (pyUpper code)) = fv := by
  unfold warehouseMatches
  simp

theorem mem_matchedWarehouseIds (ft fv id : String) (entries : List (String × String)) :
    id ∈ matchedWarehouseIds ft fv entries ↔
      ∃ code, (id, code) ∈ entries ∧ warehouseMatches ft fv code = true := by
  unfold matchedWarehouseIds
  rw [List.mem_map]
  constructor
  · rintro ⟨e, he, hid⟩
    rw [List.mem_filter] at he
    exact ⟨e.2, by rw [← hid]; exact he.1, he.2⟩
  · rintro ⟨code, hmem, hmatch⟩
    exact ⟨(id, code), List.mem_filter.mpr ⟨hmem, hmatch⟩, rfl⟩

end WhSys

namespace WhSys

/-! ## Claim C1: REGION filter as a union of CITY filters -/

theorem invoiceSum_congr (invoices : List (String × Int)) (ids ids' : List String)
    (h : ∀ x, x ∈ ids ↔ x ∈ ids') : invoiceSum invoices ids = invoiceSum invoices ids' := by
  unfold invoiceSum
  have hf : invoices.filter (fun r => ids.contains r.1) =
      invoices.filter (fun r => ids'.contains r.1) := by
    apply List.filter_congr
    intro r _
    show (List.elem r.1 ids) = (List.elem r.1 ids')
    rw [Bool.eq_iff_iff, List.elem_iff, List.elem_iff]
    exact h r.1
  rw [hf]

/-- C1: for every region value `R` (as it reaches the matching loop of
`calculate_geographical_expenses`), a warehouse id is matched by the
REGION filter exactly when some city `C` with `get_region_for_city(C) =
R` matches it under the CITY filter (whose value is normalized by
`upper().strip()`, as `calculate_geographical_expenses` does);
consequently the invoice aggregate over any id list with exactly the
union membership equals the aggregate over the REGION-matched ids. -/
theorem region_filter_equals_union_of_city_filters
    (entries : List (String × String)) (R : String) :
    (∀ id, id ∈ matchedWarehouseIds "REGION" R entries ↔
        ∃ C, get_region_for_city C "REGION_UNKNOWN" = R ∧
          id ∈ matchedWarehouseIds "CITY" (normFV C) entries) ∧
    (∀ (invoices : List (String × Int)) (ids : List String),
        (∀ id, id ∈ ids ↔
          ∃ C, get_region_for_city C "REGION_UNKNOWN" = R ∧
            id ∈ matchedWarehouseIds "CITY" (normFV C) entries) →
        invoiceSum invoices ids =
          invoiceSum invoices (matchedWarehouseIds "REGION" R entries)) := by
  have hiff : ∀ id, id ∈ matchedWarehouseIds "REGION" R entries ↔
      ∃ C, get_region_for_city C "REGION_UNKNOWN" = R ∧
        id ∈ matchedWarehouseIds "CITY" (normFV C) entries := by
    intro id
    rw [mem_matchedWarehouseIds]
    constructor
    · rintro ⟨code, hmem, hmatch⟩
      rw [warehouseMatches_REGION] at hmatch
      refine ⟨extract_city_from_warehouse_code (pyStrip (pyUpper code)), hmatch, ?_⟩
      rw [mem_matchedWarehouseIds]
      refine ⟨code, hmem, ?_⟩
      rw [warehouseMatches_CITY]
      exact (normFV_extract_city _).symm
    · rintro ⟨C, hC, hmem'⟩
      rw [mem_matchedWarehouseIds] at hmem'
      obtain ⟨code, hmem, hmatch⟩ := hmem'
      rw [warehouseMatches_CITY] at hmatch
      refine ⟨code, hmem, ?_⟩
      rw [warehouseMatches_REGION, hmatch, get_region_for_city_normFV]
      exact hC
  refine ⟨hiff, ?_⟩
  intro invoices ids hids
  apply invoiceSum_congr
  intro x
  rw [hids x, ← hiff x]

/-- Witness for C1: two warehouses, one in a SOUTH city; the union
hypothesis of the aggregate part is discharged by the set-equality part
of the theorem itself. -/
theorem region_filter_equals_union_witness :
    (∀ id, id ∈ matchedWarehouseIds "REGION" "SOUTH"
          [("1", "DELHI-5"), ("2", "CHENNAI-1")] ↔
        ∃ C, get_region_for_city C "REGION_UNKNOWN" = "SOUTH" ∧
          id ∈ matchedWarehouseIds "CITY" (normFV C)
            [("1", "DELHI-5"), ("2", "CHENNAI-1")]) ∧
    invoiceSum [("1", (10 : Int)), ("2", 5)]
        (matchedWarehouseIds "REGION" "SOUTH" [("1", "DELHI-5"), ("2", "CHENNAI-1")]) =
      invoiceSum [("1", (10 : Int)), ("2", 5)]
        (matchedWarehouseIds "REGION" "SOUTH" [("1", "DELHI-5"), ("2", "CHENNAI-1")]) := by
  obtain ⟨h1, h2⟩ :=
    region_filter_equals_union_of_city_filters [("1", "DELHI-5"), ("2", "CHENNAI-1")] "SOUTH"
  exact ⟨h1, h2 [("1", (10 : Int)), ("2", 5)]
    (matchedWarehouseIds "REGION" "SOUTH" [("1", "DELHI-5"), ("2", "CHENNAI-1")]) h1⟩

/-! ## Claim C10: the REGION_UNKNOWN sentinel as a filter value -/

theorem regionMap_values_ne_unknown : ∀ kv ∈ REGION_MAP, ¬ (kv.2 = "REGION_UNKNOWN") := by
  decide

theorem upperStrip_upper_strip (x : List Char) :
    pyUpper (pyStrip ⟨pyUpperL (pyStripL x)⟩) = ⟨pyUpperL (pyStripL x)⟩ := by
  apply (string_mk_inj _ _).mpr
  show pyUpperL (pyStripL (pyUpperL (pyStripL x))) = pyUpperL (pyStripL x)
  rw [pyStripL_pyUpperL, pyStripL_idem, pyUpperL_idem]

theorem region_unknown_iff (y : String) (hy : pyUpper (pyStrip y) = y) :
    get_region_for_city y "REGION_UNKNOWN" = "REGION_UNKNOWN" ↔ regionMapGet y = none := by
  unfold get_region_for_city
  by_cases h : y = ""
  · subst h
    simp [regionMapGet_empty]
  · rw [if_neg h, hy]
    cases hg : regionMapGet y with
    | none => simp
    | some r =>
      simp only [reduceCtorEq, iff_false]
      intro hr
      obtain ⟨kv, hfind, hkv⟩ : ∃ kv, REGION_MAP.find? (fun kv => kv.1 = y) = some kv ∧
          kv.2 = r := by
        unfold regionMapGet at hg
        cases hf : REGION_MAP.find? (fun kv => kv.1 = y) with
        | none => rw [hf] at hg; exact absurd hg (by simp)
        | some kv => rw [hf] at hg; exact ⟨kv, rfl, by injection hg⟩
      have hmem := List.mem_of_find?_eq_some hfind
      exact regionMap_values_ne_unknown kv hmem (by rw [hkv, hr])

/-- C10: with filter type `REGION` and filter value `REGION_UNKNOWN`
(the default sentinel of `get_region_for_city`, which passes untouched
through the aggregator's `upper().strip()` normalization), the matched
warehouse ids are exactly those whose extracted city has no entry in the
region map. -/
theorem region_unknown_filter_matches_unmapped
    (entries : List (String × String)) (id : String) :
    id ∈ matchedWarehouseIds "REGION" "REGION_UNKNOWN" entries ↔
      ∃ code, (id, code) ∈ entries ∧
        regionMapGet (extract_city_from_warehouse_code (pyStrip (pyUpper code))) = none := by
  rw [mem_matchedWarehouseIds]
  constructor
  · rintro ⟨code, hmem, hmatch⟩
    rw [warehouseMatches_REGION] at hmatch
    refine ⟨code, hmem, ?_⟩
    obtain ⟨x, hx⟩ := extract_city_eq_upper_strip (pyStrip (pyUpper code))
    rw [← region_unknown_iff _ (by rw [hx]; exact upperStrip_upper_strip x)]
    exact hmatch
  · rintro ⟨code, hmem, hnone⟩
    refine ⟨code, hmem, ?_⟩
    rw [warehouseMatches_REGION]
    obtain ⟨x, hx⟩ := extract_city_eq_upper_strip (pyStrip (pyUpper code))
    rw [region_unknown_iff _ (by rw [hx]; exact upperStrip_upper_strip x)]
    exact hnone

end WhSys

namespace WhSys

/-! ## Claim C8: read-only enforcement in `sql_executor` -/

theorem forbidden_keywords_wellformed :
    ∀ kw ∈ FORBIDDEN_SQL_KEYWORDS, kw.data ≠ [] ∧ ∀ c ∈ kw.data, isPySpace c = false := by
  decide

/-- C8: any SQL text whose uppercased form contains a mutating keyword
as a substring is rejected by `sql_executor` with the fixed rejection
message, for either valid database target, without reaching the
connection step (`connected = false`), hence without executing the
statement. -/
theorem sql_executor_rejects_mutating_keywords
    (sql_query db_target : String) (db : Oracle) (kw : String)
    (hkw : kw ∈ FORBIDDEN_SQL_KEYWORDS)
    (hsub : containsSub (pyUpper sql_query) kw = true)
    (htarget : db_target ∈ DB_CONNECTION_TARGETS) :
    sql_executor sql_query db_target db =
      { output := rejectionMsg, connected := false } := by
  have hany : FORBIDDEN_SQL_KEYWORDS.any
      (fun k => containsSub (pyStrip (pyUpper sql_query)) k) = true := by
    apply List.any_eq_true.mpr
    refine ⟨kw, hkw, ?_⟩
    show containsSubL kw.data (pyStrip (pyUpper sql_query)).data = true
    rw [containsSubL_iff]
    have h1 : kw.data <:+: (pyUpper sql_query).data := (containsSubL_iff _ _).mp hsub
    obtain ⟨hne, hns⟩ := forbidden_keywords_wellformed kw hkw
    show kw.data <:+: pyStripL (pyUpper sql_query).data
    exact infix_pyStripL_of _ _ hne hns h1
  unfold sql_executor
  rw [if_neg (not_not_intro htarget), if_pos hany]

/-- Witness for C8: a `DROP` statement against the INVOICES target. -/
theorem sql_executor_rejects_witness :
    sql_executor "DROP TABLE invoice_info" "INVOICES" (fun _ _ => Except.ok ([], [])) =
      { output := rejectionMsg, connected := false } :=
  sql_executor_rejects_mutating_keywords "DROP TABLE invoice_info" "INVOICES"
    (fun _ _ => Except.ok ([], [])) "DROP" (by decide) (by decide) (by decide)

/-! ## Claim C2: `DataValidator.initialize` on failed or empty master data -/

/-- Oracle for an unreachable database: `mariadb.connect` raises, so
`sql_executor` returns a string beginning `DATABASE ERROR on ...` —
which does not begin with `ERROR`. -/
def dbUnreachableOracle : Oracle := fun _ _ => Except.error "Can't connect to MariaDB server"

/-- Oracle for a reachable database whose `warehouse_info` table is
empty: the master-data query succeeds with zero rows. -/
def dbZeroRowsOracle : Oracle := fun _ _ => Except.ok (["warehouse_code"], [])

/-- C2 (refuting evaluation): `DataValidator.initialize` completes
successfully — marking the validator initialized, with zero parsed
warehouses — both when the master-data query fails at the database level
(the `DATABASE ERROR` prefix escapes the `startswith("ERROR")` check)
and when the master data contains zero warehouses (no emptiness check
exists). -/
theorem initialize_completes_despite_failure :
    ( DataValidator.initialize DataValidator.new dbUnreachableOracle =
      Except.ok { valid_regions := get_all_regions, valid_cities := [],
                  valid_warehouses := [], warehouse_to_city := [],
                  is_initialized := true }) ∧
    ( DataValidator.initialize DataValidator.new dbZeroRowsOracle =
      Except.ok { valid_regions := get_all_regions, valid_cities := [],
                  valid_warehouses := [], warehouse_to_city := [],
                  is_initialized := true }) :=
  ⟨rfl, rfl⟩

/-! ## Claim C9: the warehouse-to-city map invariant and idempotence -/

theorem setAdd_mem_mono {s : List String} {x y : String} (h : x ∈ s) : x ∈ setAdd s y := by
  unfold setAdd
  split
  · exact h
  · exact List.mem_append_left _ h

theorem setAdd_mem_self (s : List String) (y : String) : y ∈ setAdd s y := by
  unfold setAdd
  split
  case isTrue h => exact List.elem_iff.mp h
  case isFalse h => exact List.mem_append_right _ (by simp)

theorem dictInsert_mem {m : List (String × String)} {k v : String} {kv : String × String}
    (h : kv ∈ dictInsert m k v) : kv = (k, v) ∨ kv ∈ m := by
  unfold dictInsert at h
  split at h
  · obtain ⟨p, hp, hpe⟩ := List.mem_map.mp h
    by_cases hk : p.1 = k
    · rw [if_pos hk] at hpe
      exact Or.inl hpe.symm
    · rw [if_neg hk] at hpe
      exact Or.inr (hpe ▸ hp)
  · rcases List.mem_append.mp h with hm | hkv
    · exact Or.inr hm
    · exact Or.inl (by simpa using hkv)

/-- The invariant carried through the parsing loop of
`DataValidator.initialize`. -/
def ValidatorInv (acc : List String × List String × List (String × String)) : Prop :=
  ∀ kv ∈ acc.2.2, kv.1 ∈ acc.1 ∧ kv.2 ∈ acc.2.1

theorem validatorStep_inv (acc : List String × List String × List (String × String))
    (line : List Char) (h : ValidatorInv acc) : ValidatorInv (validatorStep acc line) := by
  obtain ⟨ws, cs, m⟩ := acc
  unfold validatorStep
  dsimp only
  split
  · exact h
  · split
    · exact h
    · split
      · intro kv hkv
        rcases dictInsert_mem hkv with he | hm
        · rw [he]
          exact ⟨setAdd_mem_self _ _, setAdd_mem_self _ _⟩
        · obtain ⟨h1, h2⟩ := h kv hm
          exact ⟨setAdd_mem_mono h1, setAdd_mem_mono h2⟩
      · intro kv hkv
        obtain ⟨h1, h2⟩ := h kv hkv
        exact ⟨setAdd_mem_mono h1, h2⟩

theorem foldl_validatorStep_inv (lines : List (List Char))
    (acc : List String × List String × List (String × String))
    (h : ValidatorInv acc) : ValidatorInv (lines.foldl validatorStep acc) := by
  induction lines generalizing acc with
  | nil => exact h
  | cons line rest ih => exact ih _ (validatorStep_inv acc line h)

/-- C9: after a successful `initialize` from the fresh singleton state,
every key of the warehouse-to-city map is a member of the warehouse set
and every value a member of the city set; and a second `initialize`
call — against any oracle, since the guard short-circuits before any
query — returns the state unchanged. -/
theorem dataValidator_invariant_and_idempotent (db : Oracle) (v' : DataValidator)
    (h : DataValidator.initialize DataValidator.new db = Except.ok v') :
    (∀ kv ∈ v'.warehouse_to_city, kv.1 ∈ v'.valid_warehouses ∧ kv.2 ∈ v'.valid_cities) ∧
    (∀ db' : Oracle, DataValidator.initialize v' db' = Except.ok v') := by
  unfold DataValidator.initialize at h
  rw [if_neg (by simp [DataValidator.new])] at h
  by_cases hraw : pyStartsWith (sql_executor validatorQuery "WAREHOUSE" db).output "ERROR" = true
  · rw [if_pos hraw] at h
    exact absurd h (by simp)
  · rw [if_neg hraw] at h
    rcases hfold : ((splitOnCharL '\n'
        (sql_executor validatorQuery "WAREHOUSE" db).output.data).drop 2).foldl validatorStep
        (DataValidator.new.valid_warehouses, DataValidator.new.valid_cities,
          DataValidator.new.warehouse_to_city) with ⟨ws, cs, m⟩
    rw [hfold] at h
    injection h with h
    constructor
    · intro kv hkv
      have hinv := foldl_validatorStep_inv
        ((splitOnCharL '\n' (sql_executor validatorQuery "WAREHOUSE" db).output.data).drop 2)
        (DataValidator.new.valid_warehouses, DataValidator.new.valid_cities,
          DataValidator.new.warehouse_to_city)
        (by intro kv hkv; exact absurd hkv (by simp [DataValidator.new]))
      rw [hfold] at hinv
      have := hinv kv (by rw [← h] at hkv; exact hkv)
      rw [← h]
      exact this
    · intro db'
      unfold DataValidator.initialize
      rw [if_pos (by rw [← h])]
  

/-- Master data with a single warehouse `DELHI-1`. -/
def dbOneRowOracle : Oracle := fun _ _ => Except.ok (["warehouse_code"], [["DELHI-1"]])

/-- The validator state produced by initializing against
`dbOneRowOracle`. -/
def dvAfterOneRow : DataValidator :=
  { valid_regions := get_all_regions, valid_cities := ["DELHI"],
    valid_warehouses := ["DELHI-1"], warehouse_to_city := [("DELHI-1", "DELHI")],
    is_initialized := true }

/-- Witness for C9 at the one-warehouse oracle. -/
theorem dataValidator_invariant_witness :
    (∀ kv ∈ dvAfterOneRow.warehouse_to_city,
        kv.1 ∈ dvAfterOneRow.valid_warehouses ∧ kv.2 ∈ dvAfterOneRow.valid_cities) ∧
    (∀ db' : Oracle, DataValidator.initialize dvAfterOneRow db' = Except.ok dvAfterOneRow) :=
  dataValidator_invariant_and_idempotent dbOneRowOracle dvAfterOneRow rfl

end WhSys

namespace WhSys

/-! ## Claim C6: the informational no-match sentinel -/

theorem pyStartsWith_append_left (a b p : String) (h : pyStartsWith a p = true) :
    pyStartsWith (a ++ b) p = true := by
  unfold pyStartsWith at h ⊢
  rw [String.data_append]
  rw [List.isPrefixOf_iff_prefix] at h ⊢
  exact h.trans (List.prefix_append _ _)

theorem not_pyStartsWith_of_first_char (s p : String) (c d : Char)
    (hs : s.data.head? = some c) (hp : p.data.head? = some d) (hne : ¬ c = d) :
    pyStartsWith s p = false := by
  rw [Bool.eq_false_iff]
  intro h
  unfold pyStartsWith at h
  obtain ⟨t, ht⟩ := List.isPrefixOf_iff_prefix.mp h
  cases hP : p.data with
  | nil => rw [hP] at hp; exact absurd hp (by simp)
  | cons y ys =>
    cases hS : s.data with
    | nil => rw [hS] at hs; exact absurd hs (by simp)
    | cons x xs =>
      rw [hP, hS, List.cons_append] at ht
      rw [hP] at hp
      rw [hS] at hs
      have hyx : y = x := by injection ht
      have hyd : y = d := by injection hp
      have hxc : x = c := by injection hs
      exact hne (by rw [← hxc, ← hyx, hyd])

/-- C6: whenever the master-data query result does not carry the
`ERROR` prefix, at least one warehouse parses, and no warehouse matches
the (normalized) filter, `calculate_geographical_expenses` returns a
result beginning with the `INFO` sentinel — not an `ERROR` result and
(being a total function) not an exception — and does not execute the
invoice aggregate query. -/
theorem calculate_no_match_returns_info
    (filter_type filter_value : String) (db : Oracle)
    (hft : normFV filter_type ∈ ["REGION", "CITY", "WAREHOUSE"])
    (hraw : pyStartsWith (sql_executor warehouseDataQuery "WAREHOUSE" db).output
        "ERROR" = false)
    (hparsed : (parseWarehouseData
        (sql_executor warehouseDataQuery "WAREHOUSE" db).output).isEmpty = false)
    (hmatch : matchedWarehouseIds (normFV filter_type) (normFV filter_value)
        (parseWarehouseData (sql_executor warehouseDataQuery "WAREHOUSE" db).output) = []) :
    pyStartsWith (calculate_geographical_expenses filter_type filter_value db).result
        "INFO" = true ∧
    pyStartsWith (calculate_geographical_expenses filter_type filter_value db).result
        "ERROR" = false ∧
    (calculate_geographical_expenses filter_type filter_value db).invoiceQueried = false := by
  have hcalc : calculate_geographical_expenses filter_type filter_value db =
      { result := "INFO: No warehouses found matching " ++ normFV filter_type ++ " '" ++
          normFV filter_value ++ "'. Please verify the filter value is correct.",
        invoiceQueried := false } := by
    unfold normFV at hft hmatch
    unfold calculate_geographical_expenses normFV
    dsimp only
    rw [if_neg (not_not_intro hft)]
    simp [hraw, hparsed, hmatch]
  rw [hcalc]
  refine ⟨?_, ?_, rfl⟩
  · apply pyStartsWith_append_left
    apply pyStartsWith_append_left
    apply pyStartsWith_append_left
    apply pyStartsWith_append_left
    decide
  · apply not_pyStartsWith_of_first_char _ _ 'I' 'E'
    · rw [String.data_append]
      rw [show ("INFO: No warehouses found matching " ++ normFV filter_type ++ " '" ++
          normFV filter_value).data =
          ("INFO: No warehouses found matching " ++ normFV filter_type ++ " '").data ++
          (normFV filter_value).data from String.data_append _ _]
      rfl
    · rfl
    · decide

end WhSys

namespace WhSys

/-! ## Claim C4: city extraction inverts code formation -/

theorem digitChar_in_digit_range (m : Nat) (h : m < 10) :
    48 ≤ (Nat.digitChar m).toNat ∧ (Nat.digitChar m).toNat ≤ 57 := by
  interval_cases m <;> decide

theorem toDigitsCore_digits (fuel : Nat) : ∀ (n : Nat) (ds : List Char),
    (∀ c ∈ ds, 48 ≤ c.toNat ∧ c.toNat ≤ 57) →
    ∀ c ∈ Nat.toDigitsCore 10 fuel n ds, 48 ≤ c.toNat ∧ c.toNat ≤ 57 := by
  induction fuel with
  | zero => intro n ds hds; exact hds
  | succ fuel ih =>
    intro n ds hds c hc
    rw [show Nat.toDigitsCore 10 (fuel + 1) n ds =
        if n / 10 = 0 then Nat.digitChar (n % 10) :: ds
        else Nat.toDigitsCore 10 fuel (n / 10) (Nat.digitChar (n % 10) :: ds) from rfl] at hc
    have hstep : ∀ c ∈ Nat.digitChar (n % 10) :: ds, 48 ≤ c.toNat ∧ c.toNat ≤ 57 := by
      intro c hc
      rcases List.mem_cons.mp hc with he | hm
      · rw [he]; exact digitChar_in_digit_range (n % 10) (Nat.mod_lt n (by omega))
      · exact hds c hm
    split at hc
    · exact hstep c hc
    · exact ih (n / 10) (Nat.digitChar (n % 10) :: ds) hstep c hc

theorem toDigitsCore_ne_nil (fuel : Nat) : ∀ (n : Nat) (ds : List Char),
    (ds ≠ [] ∨ 1 ≤ fuel) → Nat.toDigitsCore 10 fuel n ds ≠ [] := by
  induction fuel with
  | zero =>
    intro n ds h
    rcases h with h | h
    · exact h
    · omega
  | succ fuel ih =>
    intro n ds _
    rw [show Nat.toDigitsCore 10 (fuel + 1) n ds =
        if n / 10 = 0 then Nat.digitChar (n % 10) :: ds
        else Nat.toDigitsCore 10 fuel (n / 10) (Nat.digitChar (n % 10) :: ds) from rfl]
    split
    · simp
    · exact ih (n / 10) _ (Or.inl (by simp))

theorem toString_nat_digits (n : Nat) :
    (toString n).data ≠ [] ∧ ∀ c ∈ (toString n).data, 48 ≤ c.toNat ∧ c.toNat ≤ 57 := by
  rw [show (toString n).data = Nat.toDigitsCore 10 (n + 1) n [] from rfl]
  exact ⟨toDigitsCore_ne_nil (n + 1) n [] (Or.inr (by omega)),
    toDigitsCore_digits (n + 1) n [] (by simp)⟩

theorem digit_ne_hyphen (c : Char) (h : 48 ≤ c.toNat ∧ c.toNat ≤ 57) : ¬ (c = '-') := by
  intro he
  rw [he] at h
  exact absurd h.1 (by decide)

theorem digit_not_space (c : Char) (h : 48 ≤ c.toNat ∧ c.toNat ≤ 57) :
    isPySpace c = false := by
  unfold isPySpace
  apply decide_eq_false
  omega

theorem takeWhile_append_of_all {p : Char → Bool} (xs ys : List Char)
    (h : ∀ x ∈ xs, p x = true) :
    List.takeWhile p (xs ++ ys) = xs ++ List.takeWhile p ys := by
  induction xs with
  | nil => rfl
  | cons x xs ih =>
    rw [List.cons_append, List.takeWhile_cons_of_pos (h x (by simp)), List.cons_append,
      ih (fun a ha => h a (by simp [ha]))]

theorem dropWhile_append_of_all {p : Char → Bool} (xs ys : List Char)
    (h : ∀ x ∈ xs, p x = true) :
    List.dropWhile p (xs ++ ys) = List.dropWhile p ys := by
  induction xs with
  | nil => rfl
  | cons x xs ih =>
    rw [List.cons_append, List.dropWhile_cons_of_pos (h x (by simp)),
      ih (fun a ha => h a (by simp [ha]))]

theorem stripLeftL_append_cons (a : List Char) (c : Char) (b : List Char)
    (hc : isPySpace c = false) :
    stripLeftL (a ++ c :: b) = stripLeftL a ++ c :: b := by
  unfold stripLeftL
  rw [List.dropWhile_append]
  by_cases h : (a.dropWhile isPySpace).isEmpty = true
  · rw [if_pos h, List.dropWhile_cons_of_neg (by rw [hc]; exact Bool.false_ne_true)]
    rw [List.isEmpty_iff] at h
    rw [h, List.nil_append]
  · rw [if_neg h]

theorem stripRightL_of_last_not_space (x : List Char) (c : Char) (t : List Char)
    (hc : isPySpace c = false) (h : x.reverse = c :: t) : stripRightL x = x := by
  unfold stripRightL
  rw [h, List.dropWhile_cons_of_neg (by rw [hc]; exact Bool.false_ne_true), ← h,
    List.reverse_reverse]

theorem rsplitOnceL_at_marker (a ds : List Char) (hds : ¬ '-' ∈ ds) :
    rsplitOnceL '-' (a ++ '-' :: ds) = some (a, ds) := by
  unfold rsplitOnceL
  rw [List.span_eq_take_drop]
  have hrev : (a ++ '-' :: ds).reverse = ds.reverse ++ '-' :: a.reverse := by
    rw [List.reverse_append, List.reverse_cons, List.append_assoc, List.singleton_append]
  rw [hrev]
  have hall : ∀ x ∈ ds.reverse, (fun c => decide (¬ (c = '-'))) x = true := by
    intro x hx
    apply decide_eq_true
    intro he
    exact hds (by rw [← he]; exact List.mem_reverse.mp hx)
  rw [takeWhile_append_of_all _ _ hall, dropWhile_append_of_all _ _ hall]
  rw [List.takeWhile_cons_of_neg (by simp), List.dropWhile_cons_of_neg (by simp)]
  rw [List.append_nil]
  simp

end WhSys

namespace WhSys

/-- C4 (amended): for every `city` without a hyphen and every natural
`n`, extracting the city from the code `city + "-" + str(n)` yields
`city.strip().upper()` — equal to `city.upper()` exactly when `city`
carries no surrounding whitespace — and the multi-word example
`CHARKHI DADRI-65` extracts to `CHARKHI DADRI`. -/
theorem extract_city_inverse_of_code_formation (city : String) (n : Nat)
    (_h : ¬ '-' ∈ city.data) :
    extract_city_from_warehouse_code (city ++ "-" ++ toString n) = pyUpper (pyStrip city) ∧
    extract_city_from_warehouse_code "CHARKHI DADRI-65" = "CHARKHI DADRI" := by
  refine ⟨?_, by decide⟩
  obtain ⟨hne, hdig⟩ := toString_nat_digits n
  have hds : ¬ '-' ∈ (toString n).data := fun hmem =>
    digit_ne_hyphen '-' (hdig '-' hmem) rfl
  have hdata : (city ++ "-" ++ toString n).data =
      city.data ++ '-' :: (toString n).data := by
    rw [String.data_append, String.data_append,
      show ("-" : String).data = ['-'] from rfl, List.append_assoc, List.singleton_append]
  have hA : stripLeftL (city.data ++ '-' :: (toString n).data) =
      stripLeftL city.data ++ '-' :: (toString n).data :=
    stripLeftL_append_cons _ _ _ (by decide)
  have hB : stripRightL (stripLeftL city.data ++ '-' :: (toString n).data) =
      stripLeftL city.data ++ '-' :: (toString n).data := by
    unfold stripRightL
    have hrev : (stripLeftL city.data ++ '-' :: (toString n).data).reverse =
        (toString n).data.reverse ++ '-' :: (stripLeftL city.data).reverse := by
      rw [List.reverse_append, List.reverse_cons, List.append_assoc, List.singleton_append]
    rw [hrev]
    cases hd : (toString n).data.reverse with
    | nil =>
      have hnil : (toString n).data = [] := by rwa [List.reverse_eq_nil_iff] at hd
      exact absurd hnil hne
    | cons c t =>
      have hc : isPySpace c = false := by
        apply digit_not_space
        apply hdig
        apply List.mem_reverse.mp
        rw [hd]
        simp
      rw [List.cons_append, List.dropWhile_cons_of_neg (by rw [hc]; exact Bool.false_ne_true),
        ← List.cons_append, ← hd, ← hrev, List.reverse_reverse]
  have hw : pyStripL (city.data ++ '-' :: (toString n).data) =
      stripLeftL city.data ++ '-' :: (toString n).data := by
    unfold pyStripL
    rw [hA]
    exact hB
  have hcontains : (stripLeftL city.data ++ '-' :: (toString n).data).contains '-' = true := by
    apply List.elem_iff.mpr
    exact List.mem_append_right _ (by simp)
  unfold extract_city_from_warehouse_code
  rw [hdata, hw, if_pos hcontains, rsplitOnceL_at_marker _ _ hds]
  apply (string_mk_inj _ _).mpr
  show pyUpperL (pyStripL (stripLeftL city.data)) = pyUpperL (pyStripL city.data)
  unfold pyStripL
  rw [stripLeftL_idem]

/-- Witness for C4 at the multi-word city of the spec's example. -/
theorem extract_city_inverse_witness :
    (¬ '-' ∈ ("CHARKHI DADRI" : String).data) ∧
    (extract_city_from_warehouse_code ("CHARKHI DADRI" ++ "-" ++ toString 65) =
        pyUpper (pyStrip "CHARKHI DADRI") ∧
      extract_city_from_warehouse_code "CHARKHI DADRI-65" = "CHARKHI DADRI") :=
  ⟨by decide, extract_city_inverse_of_code_formation "CHARKHI DADRI" 65 (by decide)⟩

/-- Counterexample to C4 as stated: for `city = " CHENNAI"` (no hyphen)
and `n = 16`, extraction yields `"CHENNAI"` but `city.upper()` is
`" CHENNAI"`: the claimed identity `extract_city(city + "-" + n) =
city.upper()` fails for cities with surrounding whitespace. -/
theorem extract_city_inverse_counterexample :
    (¬ '-' ∈ (" CHENNAI" : String).data) ∧
    extract_city_from_warehouse_code (" CHENNAI" ++ "-" ++ toString 16) = "CHENNAI" ∧
    pyUpper " CHENNAI" = " CHENNAI" ∧
    ¬ (("CHENNAI" : String) = " CHENNAI") := by
  refine ⟨by decide, by decide, by decide, by decide⟩

end WhSys

namespace WhSys

/-! ## Claim C6 witness, claim C5 and claim C7 -/

/-- Master data for the no-match scenario: a single DELHI warehouse. -/
def atlantisOracle : Oracle := fun _ _ => Except.ok (["id", "warehouse_code"], [["1", "DELHI-1"]])

/-- Witness for C6: `CITY 'ATLANTIS'` against DELHI-only master data. -/
theorem calculate_no_match_witness :
    pyStartsWith (calculate_geographical_expenses "CITY" "ATLANTIS" atlantisOracle).result
        "INFO" = true ∧
    pyStartsWith (calculate_geographical_expenses "CITY" "ATLANTIS" atlantisOracle).result
        "ERROR" = false ∧
    (calculate_geographical_expenses "CITY" "ATLANTIS" atlantisOracle).invoiceQueried = false :=
  calculate_no_match_returns_info "CITY" "ATLANTIS" atlantisOracle
    (by decide) (by decide) (by decide) (by decide)

/-- C5: with `CHENNAI-16` among the valid warehouses, the raw query
`CHENNAI 16` resolves through the space-to-hyphen fast path — which runs
before the substring scan, as witnessed by the quantification over
arbitrary warehouse lists (including ones whose earlier elements are
substrings of the query) — to the `calculate_expenses`/`WAREHOUSE`
success command, independently of the backend (`llm` is arbitrary, so no
backend call can influence the result). -/
theorem chennai16_fast_path (llm : String → Except String String) (gcm : FuzzyOracle)
    (chat_history : List ChatMsg)
    (valid_regions valid_cities valid_warehouses : List String)
    (h : "CHENNAI-16" ∈ valid_warehouses) :
    agent_invoke llm gcm "CHENNAI 16" chat_history valid_regions valid_cities
      valid_warehouses = successCommand "CHENNAI-16" := by
  have hc : valid_warehouses.contains ("CHENNAI-16" : String) = true := List.elem_iff.mpr h
  have hex : extract_warehouse_code_from_query "CHENNAI 16" valid_warehouses =
      some "CHENNAI-16" := by
    unfold extract_warehouse_code_from_query
    dsimp only
    rw [if_pos (show ((pyStripL (pyUpperL ("CHENNAI 16" : String).data)).contains ' ') = true
      from rfl)]
    rw [if_pos (show ¬ ((splitOnCharL ' '
        (pyStripL (pyUpperL ("CHENNAI 16" : String).data))).getLastD []).isEmpty = true ∧
        ((splitOnCharL ' '
          (pyStripL (pyUpperL ("CHENNAI 16" : String).data))).getLastD []).all isDigitC = true
      from by decide)]
    rw [show rsplitOnceL ' ' (pyStripL (pyUpperL ("CHENNAI 16" : String).data)) =
        some (("CHENNAI" : String).data, ("16" : String).data) from rfl]
    dsimp only
    rw [show ((⟨("CHENNAI" : String).data⟩ : String) ++ "-" ++ ⟨("16" : String).data⟩ : String)
        = "CHENNAI-16" from rfl]
    rw [if_pos hc]
  unfold agent_invoke
  rw [hex]

/-- Witness for C5: a warehouse list whose first element `HEN` is a
substring of the query, so the substring scan would have answered
differently; the fast path still wins. -/
theorem chennai16_fast_path_witness :
    ("CHENNAI-16" : String) ∈ ["HEN", "CHENNAI-16"] ∧
    agent_invoke (fun _ => Except.error "backend down") (fun _ _ => []) "CHENNAI 16"
      [] [] [] ["HEN", "CHENNAI-16"] = successCommand "CHENNAI-16" :=
  ⟨by decide, chennai16_fast_path (fun _ => Except.error "backend down") (fun _ _ => [])
    [] [] [] ["HEN", "CHENNAI-16"] (by decide)⟩

/-- C7 (amended): whenever the fast path finds no warehouse code and the
backend invocation raises, `agent_invoke` returns — it never raises, as
befits a total function — the `ERROR` dict carrying the underlying
failure message. -/
theorem agent_invoke_backend_failure (llm : String → Except String String)
    (gcm : FuzzyOracle) (user_query : String) (chat_history : List ChatMsg)
    (valid_regions valid_cities valid_warehouses : List String) (msg : String)
    (hex : extract_warehouse_code_from_query user_query valid_warehouses = none)
    (hllm : ∀ p, llm p = Except.error msg) :
    agent_invoke llm gcm user_query chat_history valid_regions valid_cities
      valid_warehouses = errorResult ("LLM invocation failed: " ++ msg) := by
  unfold agent_invoke
  rw [hex]
  dsimp only
  rw [hllm]

/-- Witness for C7's amended theorem: a query matching no warehouse and
a backend that always raises `connection refused`. -/
theorem agent_invoke_backend_failure_witness :
    extract_warehouse_code_from_query "total expenses" [] = none ∧
    agent_invoke (fun _ => Except.error "connection refused") (fun _ _ => [])
        "total expenses" [] [] [] [] =
      errorResult ("LLM invocation failed: " ++ "connection refused") :=
  ⟨rfl, agent_invoke_backend_failure (fun _ => Except.error "connection refused")
    (fun _ _ => []) "total expenses" [] [] [] [] "connection refused" rfl (fun _ => rfl)⟩

/-- Counterexample to C7 as stated: when the backend returns the valid
JSON text `"status"` (a bare string), `json.loads` produces a Python
`str`, the containment check `"status" in parsed` succeeds by substring
search, and `agent_invoke` returns that string — not a RefinementResult
dict. -/
theorem agent_invoke_returns_nondict :
    agent_invoke (fun _ => Except.ok "\"status\"") (fun _ _ => []) "zzz" [] [] [] [] =
      Json.str "status" ∧ (Json.str "status").isObj = false :=
  ⟨rfl, rfl⟩

end WhSys

namespace WhSys

/-! ## Claim C3: `clean_json_response` -/

theorem removeAllF_noop (pat : List Char) (fuel : Nat) :
    ∀ l : List Char, ¬ pat <:+: l → removeAllF pat fuel l = l := by
  induction fuel with
  | zero => intro l _; rfl
  | succ fuel ih =>
    intro l h
    cases l with
    | nil => rfl
    | cons c rest =>
      simp only [removeAllF]
      rw [if_neg, ih rest (fun hinf => h (List.infix_cons hinf))]
      rintro ⟨hp, _⟩
      exact h (List.isPrefixOf_iff_prefix.mp hp).isInfix

theorem stripLineCommentsF_noop (fuel : Nat) :
    ∀ l : List Char, ¬ ['/', '/'] <:+: l → stripLineCommentsF fuel l = l := by
  induction fuel with
  | zero => intro l _; rfl
  | succ fuel ih =>
    intro l h
    cases l with
    | nil => rfl
    | cons c rest =>
      simp only [stripLineCommentsF]
      rw [if_neg, ih rest (fun hinf => h (List.infix_cons hinf))]
      intro hp
      exact h (List.isPrefixOf_iff_prefix.mp hp).isInfix

theorem stripBlockCommentsF_noop (fuel : Nat) :
    ∀ l : List Char, ¬ ['/', '*'] <:+: l → stripBlockCommentsF fuel l = l := by
  induction fuel with
  | zero => intro l _; rfl
  | succ fuel ih =>
    intro l h
    cases l with
    | nil => rfl
    | cons c rest =>
      simp only [stripBlockCommentsF]
      rw [if_neg, ih rest (fun hinf => h (List.infix_cons hinf))]
      intro hp
      exact h (List.isPrefixOf_iff_prefix.mp hp).isInfix

/-- Absence of the trailing-comma pattern `,(\s*[}\]])` anywhere in a
character list. -/
def NoTrailingCommaPattern (l : List Char) : Prop :=
  ¬ ∃ ws d, (∀ x ∈ ws, isPySpace x = true) ∧ (d = '}' ∨ d = ']') ∧
    ((',' :: (ws ++ [d])) <:+: l)

theorem noTrailingCommaPattern_tail {c : Char} {rest : List Char}
    (h : NoTrailingCommaPattern (c :: rest)) : NoTrailingCommaPattern rest :=
  fun ⟨ws, d, h1, h2, h3⟩ => h ⟨ws, d, h1, h2, List.infix_cons h3⟩

theorem fixTrailingCommasF_of_no_pattern (fuel : Nat) :
    ∀ l : List Char, NoTrailingCommaPattern l → fixTrailingCommasF fuel l = l := by
  induction fuel with
  | zero => intro l _; rfl
  | succ fuel ih =>
    intro l h
    cases l with
    | nil => rfl
    | cons c rest =>
      simp only [fixTrailingCommasF]
      by_cases hc : c = ','
      · rw [if_pos hc]
        subst hc
        cases hdw : rest.dropWhile isPySpace with
        | nil =>
          rw [ih rest (noTrailingCommaPattern_tail h)]
        | cons d rest2 =>
          dsimp only
          by_cases hd : d = '}' ∨ d = ']'
          · exfalso
            apply h
            refine ⟨rest.takeWhile isPySpace, d, ?_, hd, ?_⟩
            · intro x hx
              exact List.mem_takeWhile_imp hx
            · apply List.IsPrefix.isInfix
              refine ⟨rest2, ?_⟩
              rw [List.cons_append, List.append_assoc, List.singleton_append]
              rw [← hdw, List.takeWhile_append_dropWhile]
          · rw [if_neg hd, ih rest (noTrailingCommaPattern_tail h)]
      · rw [if_neg hc, ih rest (noTrailingCommaPattern_tail h)]

/-- A representative fenced backend response with a `//` line comment
and trailing commas before closing braces. -/
def fencedExample : String :=
  "```json\n\x7b\n  \"status\": \"SUCCESS\", // model comment\n  \"command\": \x7b\"tool_name\": \"calculate_expenses\",\x7d,\n\x7d\n```"

/-- C3 (amended): cleaning the fenced, commented, trailing-comma'd
example yields text that parses as valid JSON; and cleaning an input
that contains none of the cleanup trigger patterns (no code fence, no
`//`, no `/*`, no comma directly before whitespace and a closing
brace/bracket) — in particular any such already-valid JSON — returns it
unchanged up to surrounding whitespace. -/
theorem clean_json_response_cleans_and_preserves :
    jsonValid (clean_json_response fencedExample) = true ∧
    (∀ s : String, jsonValid s = true →
      ¬ (("```" : String).data <:+: s.data) →
      ¬ (['/', '/'] <:+: s.data) →
      ¬ (['/', '*'] <:+: s.data) →
      NoTrailingCommaPattern s.data →
      clean_json_response s = pyStrip s) := by
  constructor
  · rfl
  · intro s _h hfence hline hblock htrail
    unfold clean_json_response
    dsimp only
    have hstrip_inf : ∀ pat : List Char, pat <:+: pyStripL s.data → pat <:+: s.data :=
      fun pat hx => hx.trans (pyStripL_infix_self _)
    rw [removeAllF_noop ("```json" : String).data s.data.length (pyStripL s.data)
      (fun hx => hfence (hstrip_inf _
        (((show ("```" : String).data <+: ("```json" : String).data from by decide).isInfix).trans
          hx)))]
    rw [removeAllF_noop ("```" : String).data s.data.length (pyStripL s.data)
      (fun hx => hfence (hstrip_inf _ hx))]
    rw [pyStripL_idem]
    rw [stripLineCommentsF_noop s.data.length (pyStripL s.data)
      (fun hx => hline (hstrip_inf _ hx))]
    rw [stripBlockCommentsF_noop s.data.length (pyStripL s.data)
      (fun hx => hblock (hstrip_inf _ hx))]
    rw [fixTrailingCommasF_of_no_pattern s.data.length (pyStripL s.data)
      (fun ⟨ws, d, h1, h2, h3⟩ => htrail ⟨ws, d, h1, h2, hstrip_inf _ h3⟩)]
    rw [pyStripL_idem]
    rfl

/-- Witness for C3: the fenced example cleans to valid JSON, and the
plain valid JSON object `{"a": 1}` (no trigger patterns — it contains no
comma at all) is returned stripped-only. -/
theorem clean_json_response_witness :
    jsonValid (clean_json_response fencedExample) = true ∧
    (jsonValid "\x7b\"a\": 1\x7d" = true ∧
      clean_json_response "\x7b\"a\": 1\x7d" = pyStrip "\x7b\"a\": 1\x7d") := by
  obtain ⟨h1, h2⟩ := clean_json_response_cleans_and_preserves
  have hnp : NoTrailingCommaPattern ("\x7b\"a\": 1\x7d" : String).data := by
    rintro ⟨ws, d, _, _, hinf⟩
    have hmem : (',' : Char) ∈ ("\x7b\"a\": 1\x7d" : String).data :=
      hinf.sublist.subset (by simp)
    exact absurd hmem (by decide)
  exact ⟨h1, by decide, h2 "\x7b\"a\": 1\x7d" (by decide)
    (fun hx => absurd ((containsSubL_iff _ _).mpr hx) (by decide))
    (fun hx => absurd ((containsSubL_iff _ _).mpr hx) (by decide))
    (fun hx => absurd ((containsSubL_iff _ _).mpr hx) (by decide))
    hnp⟩

/-- Counterexample to C3 as stated: `["a//b"]` is valid JSON, yet the
`//`-comment removal mangles it — cleaning is not a no-op (up to
whitespace) on all valid inputs. -/
theorem clean_json_response_not_noop :
    jsonValid "[\"a//b\"]" = true ∧
    clean_json_response "[\"a//b\"]" = "[\"a" ∧
    ¬ (("[\"a" : String) = pyStrip "[\"a//b\"]") :=
  ⟨rfl, rfl, by decide⟩

end WhSys
